/-
  Verification of the `thom` agent runtime (TypeScript) against its
  natural-language specification.

  Shallow embedding: each TypeScript class/function relevant to the claims is
  translated into an executable Lean definition.  Asynchronous callbacks are
  made explicit (the Notifier's waiter set stores abstract waiter tokens; the
  scheduler run loop consumes an explicit list of "external activity during a
  suspension" records; the model port is a function from call index and prompt
  to a result).  Wall-clock fields (Date.now durations) are omitted: no claim
  mentions them.
-/
import Mathlib

namespace Thom

/-! ### Notifier  (src/scheduler.ts, lines 17-36)

The TS `waitQueue` is a `Set` of resolver callbacks; we represent each
registered waiter by an abstract numeric token.  `wait` either resolves
immediately (consuming the pending flag) or registers the caller;
`signal` resumes (returns) every registered waiter, clearing the set, and
sets the pending flag instead when no waiter is present. -/

deriving instance DecidableEq for Except

structure NotifierState where
  waitQueue : List Nat
  hasPendingSignal : Bool
  deriving Repr, DecidableEq

/-- Result of a `wait()` call: resolved immediately from the pending slot,
or suspended (registered in the wait queue). -/
inductive WaitOutcome
  | immediate
  | suspended
  deriving Repr, DecidableEq

namespace Notifier

/-- `wait()`: if a signal is pending, consume it and resolve immediately;
otherwise add this caller to the wait queue and suspend. -/
def wait (s : NotifierState) (w : Nat) : WaitOutcome × NotifierState :=
  if s.hasPendingSignal then
    (.immediate, { s with hasPendingSignal := false })
  else
    (.suspended, { s with waitQueue := s.waitQueue ++ [w] })

/-- `signal()`: if no waiter is registered, set the pending flag; resume
every registered waiter and clear the queue.  The first component is the
list of waiters resumed by this call. -/
def signal (s : NotifierState) : List Nat × NotifierState :=
  let pending := if s.waitQueue.isEmpty then true else s.hasPendingSignal
  (s.waitQueue, { waitQueue := [], hasPendingSignal := pending })

/-- The state after a `signal()` call (discarding the resumed list). -/
def signalSt (s : NotifierState) : NotifierState := (signal s).2

/-- State after `n` consecutive `signal()` calls. -/
def signalN : Nat → NotifierState → NotifierState
  | 0, s => s
  | n + 1, s => signalN n (signalSt s)

end Notifier

/-! ### Scheduler queues  (src/scheduler.ts, lines 3-11, 38-65, 107-156)

A `Task` is an opaque unit of work; for dequeue-ordering claims only its
identifier matters (the `run` body is an arbitrary side effect, modelled in
the run loop by recording the id of every task executed). -/

structure Task where
  id : String
  deriving Repr, DecidableEq

inductive Lane
  | domain
  | ui
  deriving Repr, DecidableEq

inductive Prio
  | high
  | medium
  | low
  deriving Repr, DecidableEq

/-- `const LANES = ["domain", "ui"]`. -/
def LANES : List Lane := [.domain, .ui]

/-- `const PRIOS = ["high", "medium", "low"]`. -/
def PRIOS : List Prio := [.high, .medium, .low]

/-- One lane's three priority queues (`{ high, medium, low }`). -/
structure LaneQueues where
  high : List Task
  medium : List Task
  low : List Task
  deriving Repr, DecidableEq

/-- The scheduler's queue field: `{ domain: {...}, ui: {...} }`. -/
structure Queues where
  domain : LaneQueues
  ui : LaneQueues
  deriving Repr, DecidableEq

def LaneQueues.cell (q : LaneQueues) : Prio → List Task
  | .high => q.high
  | .medium => q.medium
  | .low => q.low

def LaneQueues.setCell (q : LaneQueues) : Prio → List Task → LaneQueues
  | .high, v => { q with high := v }
  | .medium, v => { q with medium := v }
  | .low, v => { q with low := v }

def Queues.lane (q : Queues) : Lane → LaneQueues
  | .domain => q.domain
  | .ui => q.ui

def Queues.setLane (q : Queues) : Lane → LaneQueues → Queues
  | .domain, v => { q with domain := v }
  | .ui, v => { q with ui := v }

/-- `this.queue[lane][priority]`. -/
def Queues.cell (q : Queues) (l : Lane) (p : Prio) : List Task :=
  (q.lane l).cell p

def Queues.setCell (q : Queues) (l : Lane) (p : Prio) (v : List Task) : Queues :=
  q.setLane l ((q.lane l).setCell p v)

/-- The empty queue set (constructor initialisation). -/
def Queues.empty : Queues :=
  { domain := { high := [], medium := [], low := [] },
    ui := { high := [], medium := [], low := [] } }

/-- Total number of queued tasks across all cells. -/
def Queues.count (q : Queues) : Nat :=
  q.domain.high.length + q.domain.medium.length + q.domain.low.length +
    q.ui.high.length + q.ui.medium.length + q.ui.low.length

/-- `Scheduler.getNext` (scheduler.ts lines 58-65): the nested
`for lane of LANES / for priority of PRIOS` loops with early return,
unrolled.  Returns the first `(lane, priority)` whose cell is non-empty. -/
def getNext (q : Queues) : Option (Lane × Prio) :=
  if q.domain.high ≠ [] then some (.domain, .high)
  else if q.domain.medium ≠ [] then some (.domain, .medium)
  else if q.domain.low ≠ [] then some (.domain, .low)
  else if q.ui.high ≠ [] then some (.ui, .high)
  else if q.ui.medium ≠ [] then some (.ui, .medium)
  else if q.ui.low ≠ [] then some (.ui, .low)
  else none

/-- The `(lane, priority)` scan order induced by the nested loops of
`getNext`: lane-major (`domain` before `ui`), priority-minor
(`high`, `medium`, `low`). -/
def scanOrder : List (Lane × Prio) :=
  LANES.flatMap fun l => PRIOS.map fun p => (l, p)

/-- The dequeue step of `Scheduler.tick` (scheduler.ts lines 107-112):
select the next cell with `getNext`, then `shift()` its first task.
Returns the dequeued task and the remaining queues, or `none` when all
queues are empty (tick returns `false` without running anything). -/
def tickSelect (q : Queues) : Option (Task × Queues) :=
  match getNext q with
  | none => none
  | some (l, p) =>
    match q.cell l p with
    | [] => none
    | t :: rest => some (t, q.setCell l p rest)

/-- `Scheduler.enqueue` (scheduler.ts lines 144-155), queue part: push the
task to the back of the targeted cell (the accompanying `notifier.signal()`
is modelled in the run-loop state below). -/
def enqueueQ (q : Queues) (t : Task) (l : Lane) (p : Prio) : Queues :=
  q.setCell l p (q.cell l p ++ [t])

/-- Repeated `tick` dequeue with explicit fuel: the ids of the tasks the
scheduler would run, in execution order. -/
def drain : Nat → Queues → List Task
  | 0, _ => []
  | n + 1, q =>
    match tickSelect q with
    | none => []
    | some (t, q') => t :: drain n q'

/-- The three-task priority example queue: `A:low`, `B:high`, `C:medium`
enqueued on the `domain` lane in that order. -/
def exampleQueue : Queues :=
  enqueueQ (enqueueQ (enqueueQ Queues.empty ⟨"A"⟩ .domain .low) ⟨"B"⟩ .domain .high)
    ⟨"C"⟩ .domain .medium

/-! ### Scheduler run loop  (src/scheduler.ts, lines 38-105)

The scheduler's `status` field plus the Notifier it owns.  `start()` runs a
cooperative `while` loop; when a tick finds no work the loop goes `idle`
and suspends on `notifier.wait()`.  External activity (producers calling
`enqueue`, a controller calling `stop`) can only overlap the loop during
such a suspension; one `WaitWake` record lists the external calls made
during one suspension.  Each such call signals the Notifier: the first
signal resumes the suspended loop, later ones find no waiter and set the
pending flag (Notifier semantics above).  The run loop is the single
waiter, represented by token `0`.  `ran` records the ids of executed
tasks in order.  The loop itself may run forever, so it is indexed by
fuel; the claims proved about it hold for every fuel value. -/

inductive SchedStatus
  | running
  | idle
  | stopped
  deriving Repr, DecidableEq

structure SchedState where
  status : SchedStatus
  queue : Queues
  notifier : NotifierState
  ran : List String
  deriving Repr, DecidableEq

/-- External calls made while the run loop is suspended in
`await this.notifier.wait()`: a batch of `enqueue`s and possibly a
`stop()`. -/
structure WaitWake where
  enqueued : List (Lane × Prio × Task)
  stopCalled : Bool
  deriving Repr, DecidableEq

/-- `Scheduler.stop` (scheduler.ts lines 87-90): set status to `stopped`
and signal the Notifier. -/
def SchedState.stop (s : SchedState) : SchedState :=
  { s with status := .stopped, notifier := Notifier.signalSt s.notifier }

/-- `Scheduler.enqueue` (scheduler.ts lines 144-155): push the task, then
signal the Notifier unconditionally. -/
def SchedState.enqueue (s : SchedState) (t : Task) (l : Lane) (p : Prio) : SchedState :=
  { s with queue := enqueueQ s.queue t l p, notifier := Notifier.signalSt s.notifier }

/-- Apply one suspension's external activity to the state: each `enqueue`
pushes and signals, then `stop()` (if called) sets `stopped` and signals.
The suspended loop is waiter `0`; the first signal resumes it (clearing
the wait queue), later signals set the pending flag. -/
def applyWaitWake (s : SchedState) (w : WaitWake) : SchedState :=
  let s1 := w.enqueued.foldl (fun a e => a.enqueue e.2.2 e.1 e.2.1) s
  if w.stopCalled then s1.stop else s1

/-- The `while (this.state.status === "running")` loop of `Scheduler.start`
(scheduler.ts lines 96-104), with the dequeue-and-run body of `tick`
(lines 107-142) inlined: a successful tick appends the task's id to `ran`
(task bodies and their logging are opaque side effects; a throwing task is
caught and also counts as work done).  When a tick finds no work the loop
sets `idle` and waits: a pending signal resolves the wait immediately;
otherwise the loop registers as waiter `0` and the next `WaitWake` of the
environment is consumed; with no environment left the loop stays suspended
(the suspended state is returned).  After every wake the loop re-checks
the status (`if idle then running`) before the `while` guard runs again. -/
def runLoop : Nat → List WaitWake → SchedState → SchedState
  | 0, _, s => s
  | fuel + 1, env, s =>
    if s.status ≠ .running then s
    else
      match tickSelect s.queue with
      | some (t, q') =>
        runLoop fuel env { s with queue := q', ran := s.ran ++ [t.id] }
      | none =>
        let s1 := { s with status := .idle }
        match Notifier.wait s1.notifier 0 with
        | (.immediate, n') =>
          let s2 := { s1 with notifier := n' }
          runLoop fuel env
            { s2 with status := if s2.status = .idle then .running else s2.status }
        | (.suspended, n') =>
          match env with
          | [] => { s1 with notifier := n' }
          | w :: rest =>
            let s2 := applyWaitWake { s1 with notifier := n' } w
            runLoop fuel rest
              { s2 with status := if s2.status = .idle then .running else s2.status }

/-- `Scheduler.start` (scheduler.ts lines 92-105): a no-op when already
running, an error ("cannot restart") when stopped, otherwise enter the
run loop with status `running`. -/
def SchedState.start (fuel : Nat) (env : List WaitWake) (s : SchedState) :
    Except String SchedState :=
  if s.status = .running then .ok s
  else if s.status = .stopped then .error "cannot restart"
  else .ok (runLoop fuel env { s with status := .running })

/-! ### Internal events  (src/events.ts) -/

inductive Event
  | start (sessionId : String)
  | tokenChunk (text target reqId : String)
  | llmComplete (target reqId : String)
  | llmCanceled (target reqId : String)
  | llmError (error target reqId : String)
  | userInput (text target reqId : String)
  | toolResult (target tool : String) (reqId : Option String) (ok : Bool) (data : String)
  deriving Repr, DecidableEq

/-! ### Planner message contract  (src/actors/builder-agent.ts, lines 76-137)

The zod schemas `PlannerMsg` / `PlannerTurn` describe the validated
structured output of one model round; the tagged union is mirrored here.
`headers`, `body` and `meta` are free-form JSON records in the schema and
are carried opaquely as serialized strings. -/

inductive FsOp
  | read
  | write
  | append
  deriving Repr, DecidableEq

/-- zod `FsArgs`. -/
structure FsToolArgs where
  op : FsOp
  path : String
  content : Option String
  deriving Repr, DecidableEq

inductive HttpMethod
  | get
  | post
  deriving Repr, DecidableEq

/-- zod `HttpArgs` (`method` carries the parse-time default `GET`;
`headers`/`body` are opaque JSON payloads). -/
structure HttpToolArgs where
  url : String
  method : HttpMethod
  headers : Option String
  body : Option String
  deriving Repr, DecidableEq

inductive ToolName
  | fs
  | http
  deriving Repr, DecidableEq

/-- `z.union([FsArgs, HttpArgs])`. -/
inductive ToolArgs
  | fs (a : FsToolArgs)
  | http (a : HttpToolArgs)
  deriving Repr, DecidableEq

inductive DeliverableKind
  | path
  | url
  | text
  | code
  deriving Repr, DecidableEq

/-- Deliverable kind inside a `final` message (no `code` variant). -/
inductive FinalKind
  | path
  | url
  | text
  deriving Repr, DecidableEq

structure DeliverableRef where
  kind : FinalKind
  value : String
  deriving Repr, DecidableEq

inductive PlannerMsg
  | step (step : Nat) (goal : String) (say : Option String)
  | action (step : Nat) (toolcallId : String) (tool : ToolName) (args : ToolArgs)
      (say : Option String)
  | deliverable (step : Nat) (kind : DeliverableKind) (value : String)
      (meta : Option String) (say : Option String)
  | final (step : Nat) (summary : String) (deliverables : List DeliverableRef)
  deriving Repr, DecidableEq

/-- zod `PlannerTurn` (`schema_version` is the literal `1`, enforced by
validation, so only the message payload is carried). -/
structure PlannerTurn where
  message : PlannerMsg
  deriving Repr, DecidableEq

/-! ### UI events  (ui-messages.ts) -/

inductive StopReason
  | final
  | error
  | interrupted
  | maxSteps
  deriving Repr, DecidableEq

/-- `AgentUiEvent`: the 15 presentation-facing kinds.  Wall-clock fields
(`at`, `durationMs`) are omitted. -/
inductive UiEvent
  | sessionStart (sessionId agentId : String)
  | userTurn (agentId requestId text : String)
  | planningStart (agentId requestId : String)
  | planningStop (agentId requestId : String) (reason : StopReason) (detail : Option String)
  | step (step : Nat) (goal : String) (say : Option String)
  | action (step : Nat) (tool : ToolName) (toolcallId : String) (args : ToolArgs)
      (say : Option String)
  | observation (tool : String) (ok : Bool) (data : String)
  | deliverable (step : Nat) (kind : DeliverableKind) (value : String)
      (meta : Option String) (say : Option String)
  | final (step : Nat) (summary : String) (deliverables : List DeliverableRef)
  | status (status : String)
  | error (phase : String) (message : String)
  | llmStart (target requestId promptPreview : String)
  | streamToken (target token : String)
  | streamDone (target : String)
  | llmEnd (target requestId : String) (tokens : Option Nat)
  deriving Repr, DecidableEq

/-- Everything passed to `Runtime.dispatch`: internal runtime events
(`type` field) and UI events (`kind` field). -/
inductive Dispatched
  | internal (e : Event)
  | ui (u : UiEvent)
  deriving Repr, DecidableEq

/-! ### Model-call adapter  (src/drivers/llm.ts)

The model port's `generate(prompt)` produces a lazy finite stream of text
chunks that may end in a failure; `GenResult` is that observable behaviour
(the chunks successfully yielded, then an optional error).  `run` and
`runOnce` both consume it; the scheduler task wrapping is elided — the
dispatch list below is what the task emits when it runs (preceded by the
`llm-start` event emitted synchronously at submission).  The random
request id is a parameter. -/

/-- JavaScript `s.slice(0, n)`: the first `n` characters of `s`. -/
def sliceTo (s : String) (n : Nat) : String := ⟨s.data.take n⟩

structure GenResult where
  chunks : List String
  error : Option String
  deriving Repr, DecidableEq

/-- `buf.length ? buf.split(/\s+/).length : 0` — the rough token-count
fallback of `runOnce` (whitespace-word count). -/
def roughTokenCount (s : String) : Nat :=
  if s.length = 0 then 0
  else ((s.split Char.isWhitespace).filter (fun w => w ≠ "")).length

namespace LlmAdapter

/-- `LlmAdapter.run` (llm.ts lines 12-80): the streaming variant.  Emits
`llm-start`, then per chunk an internal `TokenChunk` and a UI
`stream-token`; on exhaustion `stream-done`, `LlmComplete`, `llm-end`;
on a failure after the yielded chunks `LlmError`, then still
`stream-done` and `llm-end`. -/
def run (prompt target reqId : String) (g : GenResult) : List Dispatched :=
  .ui (.llmStart target reqId (sliceTo prompt 160)) ::
    (g.chunks.flatMap fun c =>
      [.internal (.tokenChunk c target reqId), .ui (.streamToken target c)]) ++
    match g.error with
    | none =>
      [.ui (.streamDone target), .internal (.llmComplete target reqId),
       .ui (.llmEnd target reqId (some g.chunks.length))]
    | some e =>
      [.internal (.llmError e target reqId), .ui (.streamDone target),
       .ui (.llmEnd target reqId (some g.chunks.length))]

/-- `LlmAdapter.runOnce` (llm.ts lines 82-132): the non-streaming variant.
Buffers all chunks into one string and returns it to the caller; emits
only `llm-start` and `llm-end` (no per-token events).  A generation
failure rejects (after emitting an `llm-end` without a token count). -/
def runOnce (prompt target reqId : String) (g : GenResult) :
    Except String String × List Dispatched :=
  let buf := String.join g.chunks
  match g.error with
  | some e =>
    (.error e,
     [.ui (.llmStart target reqId (sliceTo prompt 160)), .ui (.llmEnd target reqId none)])
  | none =>
    (.ok buf,
     [.ui (.llmStart target reqId (sliceTo prompt 160)),
      .ui (.llmEnd target reqId (some (roughTokenCount buf)))])

end LlmAdapter

/-- The token texts among a dispatch list's `stream-token` UI events, in
emission order. -/
def streamTokensOf (ds : List Dispatched) : List String :=
  ds.filterMap fun d =>
    match d with
    | .ui (.streamToken _ t) => some t
    | _ => none

/-! ### Filesystem port  (src/drivers/fs-port.ts)

Node `path` calls are modelled on `/`-separated absolute paths: a path is
split into components, `..` pops the previous component (stopping at the
filesystem root) and `.`/empty components vanish — this is
`path.resolve` on an absolute input.  `FsPort.run`'s filesystem calls are
recorded as an effect trace in execution order; `fs.readFile` contents
come from an abstract filesystem `contents` function. -/

def splitPathAux : List Char → List Char → List String
  | [], acc => [String.mk acc.reverse]
  | c :: cs, acc =>
    if c = '/' then String.mk acc.reverse :: splitPathAux cs []
    else splitPathAux cs (c :: acc)

/-- `s.split("/")`, dropping empty and `.` components. -/
def splitPath (s : String) : List String :=
  (splitPathAux s.data []).filter fun c => c ≠ "" ∧ c ≠ "."

def normalizeParts (parts : List String) : List String :=
  parts.foldl (fun acc c => if c = ".." then acc.dropLast else acc ++ [c]) []

def joinSlash : List String → String
  | [] => ""
  | [p] => p
  | p :: ps => p ++ "/" ++ joinSlash ps

/-- `path.resolve` of an absolute path string. -/
def resolveAbs (s : String) : String :=
  "/" ++ joinSlash (normalizeParts (splitPath s))

/-- JavaScript `full.startsWith(prefix)`. -/
def jsStartsWith (pre s : String) : Bool :=
  pre.data.isPrefixOf s.data

/-- Spec-side predicate: the resolved path `full` lies inside the
directory tree rooted at `root` (component-wise prefix of the resolved
component lists). -/
def underRoot (root full : String) : Bool :=
  (normalizeParts (splitPath root)).isPrefixOf (normalizeParts (splitPath full))

/-- A filesystem side effect performed by `FsPort.run`. -/
inductive FsEffect
  | mkdirRecursive (dir : String)
  | readFile (path : String)
  | writeFile (path : String) (content : String)
  | appendFile (path : String) (content : String)
  deriving Repr, DecidableEq

/-- The filesystem location an effect touches. -/
def FsEffect.path : FsEffect → String
  | .mkdirRecursive d => d
  | .readFile p => p
  | .writeFile p _ => p
  | .appendFile p _ => p

/-- The untyped `args` destructured by `FsPort.run`
(`const { op, path, content } = args ?? {}`). -/
structure FsRunArgs where
  op : String
  path : String
  content : Option String
  deriving Repr, DecidableEq

structure ToolOutcome where
  ok : Bool
  data : String
  deriving Repr, DecidableEq

namespace FsPort

/-- `FsPort.safe` (fs-port.ts lines 8-13): resolve the joined path and
check it against the root with a string `startsWith`. -/
def safe (root p : String) : Except String String :=
  let full := resolveAbs (root ++ "/" ++ p)
  if jsStartsWith (resolveAbs root) full then .ok full
  else .error "path escapes workspace"

/-- `FsPort.run` (fs-port.ts lines 14-34).  Returns the trace of
filesystem effects performed (in order) and the `{ok, data}` outcome.
A `safe` failure is the thrown error caught by the surrounding
`try`/`catch`, producing `ok := false` with the error message; note that
the `write` branch performs its recursive `mkdir` on
`resolve(join(root, path, ".."))` *before* `safe` runs. -/
def run (contents : String → String) (root : String) (a : FsRunArgs) :
    List FsEffect × ToolOutcome :=
  if a.op = "read" then
    match safe root a.path with
    | .ok full => ([.readFile full], { ok := true, data := contents full })
    | .error e => ([], { ok := false, data := e })
  else if a.op = "write" then
    let dir := resolveAbs (root ++ "/" ++ a.path ++ "/" ++ "..")
    match safe root a.path with
    | .ok full =>
      ([.mkdirRecursive dir, .writeFile full (a.content.getD "")], { ok := true, data := "ok" })
    | .error e => ([.mkdirRecursive dir], { ok := false, data := e })
  else if a.op = "append" then
    match safe root a.path with
    | .ok full => ([.appendFile full (a.content.getD "")], { ok := true, data := "ok" })
    | .error e => ([], { ok := false, data := e })
  else ([], { ok := false, data := "unsupported fs op" })

end FsPort

/-! ### Effects  (effect.ts, imported by the agent and the runtime)

Modelled from the spec: the file `effect.ts` itself is not among the
sources, but spec §3 fixes the type as the closed union
`{LlmGenerate(prompt, target), ToolCall(tool, args, target)}`, and the
agent constructs `{kind: "ToolCall", tool, args, target}` literally
(builder-agent.ts lines 329-334). -/

inductive Effect
  | llmGenerate (prompt target : String)
  | toolCall (tool : ToolName) (args : ToolArgs) (target : String)
  deriving Repr, DecidableEq

/-! ### BuilderAgent  (src/actors/builder-agent.ts)

The agent's mutable fields become an explicit `AgentState`; the injected
`llmOnce` capability becomes a pure model port `Nat → String → Except`
mapping the index of the call (how many model calls were made before it)
and the rendered prompt to either the model's raw text or a transport
failure.  JSON parsing plus zod validation of the raw text
(`JSON.parse` + `PlannerTurn.parse`) becomes an abstract
`validate : String → Except String PlannerTurn` returning either the
validated turn or the repair hint (the stringified zod issues or the
thrown message).  `onUpdate` emissions are accumulated in `events`,
`submitEffect` submissions in `effects`, and `modelCalls` counts the
`llmOnce` invocations. -/

inductive Role
  | system
  | user
  | assistant
  deriving Repr, DecidableEq

/-- One transcript entry (`{ role, content }`). -/
structure Msg where
  role : Role
  content : String
  deriving Repr, DecidableEq

structure AgentState where
  id : String
  interrupted : Bool
  steps : Nat
  currentReqId : Option String
  convo : List Msg
  events : List UiEvent
  effects : List Effect
  modelCalls : Nat
  deriving Repr, DecidableEq

def ToolName.str : ToolName → String
  | .fs => "fs"
  | .http => "http"

def FsOp.str : FsOp → String
  | .read => "read"
  | .write => "write"
  | .append => "append"

def HttpMethod.str : HttpMethod → String
  | .get => "GET"
  | .post => "POST"

def DeliverableKind.str : DeliverableKind → String
  | .path => "path"
  | .url => "url"
  | .text => "text"
  | .code => "code"

def FinalKind.str : FinalKind → String
  | .path => "path"
  | .url => "url"
  | .text => "text"

namespace BuilderAgent

def MAX_STEPS : Nat := 12

def MAX_REPAIRS : Nat := 2

/-- `m.role.toUpperCase()`. -/
def roleUpper : Role → String
  | .system => "SYSTEM"
  | .user => "USER"
  | .assistant => "ASSISTANT"

/-- `convo.map(m => ROLE + ": " + content).join("\n\n")`. -/
def renderConvo (convo : List Msg) : String :=
  String.intercalate "\n\n" (convo.map fun m => roleUpper m.role ++ ": " ++ m.content)

/-- The prompt built at the top of `loop` (builder-agent.ts lines 250-254). -/
def loopPrompt (convo : List Msg) : String :=
  renderConvo convo ++
    "\n\nReturn ONLY JSON: \x7b\"schema_version\":1,\"message\":\x7b...\x7d\x7d matching the schema exactly."

/-- The prompt built inside the repair `ask` callback (lines 277-281). -/
def repairPrompt (convo : List Msg) : String :=
  renderConvo convo ++ "\n\nReturn ONLY JSON matching the schema."

/-- The repair request pushed to the transcript (lines 271-276). -/
def repairMsgText (hint : String) : String :=
  "Your last response was invalid.\nValidation error(s):\n" ++ hint ++
    "\n\nRe-emit ONLY a correct JSON object: \x7b\"schema_version\":1,\"message\":\x7b...\x7d\x7d. No extra text."

/-- Minimal JSON string escaping, for `JSON.stringify` of the validated
message recorded as the assistant transcript turn. -/
def jsonEscapeChar (c : Char) : String :=
  if c = '"' then "\\\""
  else if c = '\\' then "\\\\"
  else if c = '\n' then "\\n"
  else String.singleton c

def jsonStr (s : String) : String :=
  "\"" ++ String.join (s.data.map jsonEscapeChar) ++ "\""

/-- An optional trailing JSON field (absent keys are omitted by
`JSON.stringify`). -/
def optField (name : String) : Option String → String
  | none => ""
  | some v => "," ++ jsonStr name ++ ":" ++ jsonStr v

/-- An optional field whose value is an opaque already-serialized JSON
payload. -/
def optRawField (name : String) : Option String → String
  | none => ""
  | some v => "," ++ jsonStr name ++ ":" ++ v

def stringifyArgs : ToolArgs → String
  | .fs a =>
    "\x7b\"op\":" ++ jsonStr a.op.str ++ ",\"path\":" ++ jsonStr a.path ++
      optField "content" a.content ++ "\x7d"
  | .http a =>
    "\x7b\"url\":" ++ jsonStr a.url ++ ",\"method\":" ++ jsonStr a.method.str ++
      optRawField "headers" a.headers ++ optRawField "body" a.body ++ "\x7d"

def stringifyDeliverableRef (d : DeliverableRef) : String :=
  "\x7b\"kind\":" ++ jsonStr d.kind.str ++ ",\"value\":" ++ jsonStr d.value ++ "\x7d"

/-- `JSON.stringify(turn.message)` (builder-agent.ts lines 296-300). -/
def stringifyMsg : PlannerMsg → String
  | .step st goal say =>
    "\x7b\"type\":\"step\",\"step\":" ++ toString st ++ ",\"goal\":" ++ jsonStr goal ++
      optField "say" say ++ "\x7d"
  | .action st tid tool args say =>
    "\x7b\"type\":\"action\",\"step\":" ++ toString st ++ ",\"toolcall_id\":" ++
      jsonStr tid ++ ",\"tool\":" ++ jsonStr tool.str ++ ",\"args\":" ++
      stringifyArgs args ++ optField "say" say ++ "\x7d"
  | .deliverable st kind value meta say =>
    "\x7b\"type\":\"deliverable\",\"step\":" ++ toString st ++ ",\"kind\":" ++
      jsonStr kind.str ++ ",\"value\":" ++ jsonStr value ++ optRawField "meta" meta ++
      optField "say" say ++ "\x7d"
  | .final st summary dels =>
    "\x7b\"type\":\"final\",\"step\":" ++ toString st ++ ",\"summary\":" ++
      jsonStr summary ++ ",\"deliverables\":[" ++
      String.intercalate "," (dels.map stringifyDeliverableRef) ++ "]\x7d"

/-- `BuilderAgent.emitPlanningStop` (builder-agent.ts lines 150-163): a
no-op without an active request id; otherwise emit one `planning-stop`
carrying the active id and clear it. -/
def emitPlanningStop (reason : StopReason) (detail : Option String)
    (s : AgentState) : AgentState :=
  match s.currentReqId with
  | none => s
  | some r =>
    { s with events := s.events ++ [.planningStop s.id r reason detail],
             currentReqId := none }

/-- `BuilderAgent.interrupt` (builder-agent.ts lines 176-178). -/
def interrupt (s : AgentState) : AgentState :=
  { s with interrupted := true }

/-- `BuilderAgent.parseOrRepair` (builder-agent.ts lines 368-391), with the
`ask` callback of `loop` (lines 270-283) inlined.  `remaining` counts the
repair requests still allowed (`MAX_REPAIRS - i` for the source's loop
index `i`); `calls` is the number of model calls made so far (the index
of the next one).  On a validation failure with repairs left, `ask`
pushes the repair request to the transcript and performs one more model
call; a model-call failure there propagates out as the thrown error.
Exhausting repairs throws the last hint. -/
def parseOrRepair (port : Nat → String → Except String String)
    (validate : String → Except String PlannerTurn) :
    String → Nat → List Msg → Nat → Except String PlannerTurn × List Msg × Nat
  | raw, remaining, convo, calls =>
    match validate raw with
    | .ok t => (.ok t, convo, calls)
    | .error err =>
      let hint := sliceTo err 2000
      match remaining with
      | 0 => (.error (if hint = "" then "unknown validation error" else hint), convo, calls)
      | r + 1 =>
        let convo' := convo ++ [⟨.user, repairMsgText hint⟩]
        match port calls (repairPrompt convo') with
        | .error e => (.error e, convo', calls + 1)
        | .ok newRaw => parseOrRepair port validate newRaw r convo' (calls + 1)

/-- `BuilderAgent.loop` (builder-agent.ts lines 234-304) with
`handleMessage` (lines 308-362) inlined.  One invocation checks the
interrupt flag and the step budget, then performs one planning round:
one model call, validation with bounded repair, recording the validated
message as the assistant turn, then acting on its tag (`step`/
`deliverable` re-enter the loop, `action` submits a `ToolCall` effect and
suspends, `final` stops). -/
def loop (port : Nat → String → Except String String)
    (validate : String → Except String PlannerTurn) (s : AgentState) : AgentState :=
  if s.interrupted then
    emitPlanningStop .interrupted none
      { s with events := s.events ++ [.status "interrupted"] }
  else if MAX_STEPS ≤ s.steps then
    emitPlanningStop .maxSteps (some ("Reached " ++ toString MAX_STEPS ++ " planner steps"))
      { s with events := s.events ++ [.status "max-steps"] }
  else
    match port s.modelCalls (loopPrompt s.convo) with
    | .error e =>
      emitPlanningStop .error (some e)
        { s with steps := s.steps + 1, modelCalls := s.modelCalls + 1,
                 events := s.events ++ [.error "planner" e] }
    | .ok raw =>
      match parseOrRepair port validate raw MAX_REPAIRS s.convo (s.modelCalls + 1) with
      | (.error e, convo', calls') =>
        emitPlanningStop .error (some ("planner output invalid: " ++ e))
          { s with steps := s.steps + 1, convo := convo', modelCalls := calls',
                   events := s.events ++ [.error "planner" ("planner output invalid: " ++ e)] }
      | (.ok turn, convo', calls') =>
        match turn.message with
        | .step st goal say =>
          loop port validate
            { s with steps := s.steps + 1,
                     convo := convo' ++ [⟨.assistant, stringifyMsg turn.message⟩],
                     modelCalls := calls',
                     events := s.events ++ [.step st goal say] }
        | .action st tid tool args say =>
          { s with steps := s.steps + 1,
                   convo := convo' ++ [⟨.assistant, stringifyMsg turn.message⟩],
                   modelCalls := calls',
                   events := s.events ++ [.action st tool tid args say],
                   effects := s.effects ++ [.toolCall tool args s.id] }
        | .deliverable st kind value meta say =>
          loop port validate
            { s with steps := s.steps + 1,
                     convo := convo' ++ [⟨.assistant, stringifyMsg turn.message⟩],
                     modelCalls := calls',
                     events := s.events ++ [.deliverable st kind value meta say] }
        | .final st summary dels =>
          emitPlanningStop .final none
            { s with steps := s.steps + 1,
                     convo := convo' ++ [⟨.assistant, stringifyMsg turn.message⟩],
                     modelCalls := calls',
                     events := s.events ++ [.final st summary.trim dels] }
termination_by MAX_STEPS - s.steps
decreasing_by all_goals simp_all [MAX_STEPS]; omega

/-- `BuilderAgent.on` (builder-agent.ts lines 180-230): the three handled
internal events.  `UserInput` (for this agent) records the request id,
appends the user turn, resets the step counter and interrupt flag, emits
`user-turn` and `planning-start`, and enters the loop; `ToolResult`
appends the 2000-character-truncated observation as a user turn, emits an
`observation`, and re-enters the loop; `LlmError` emits an `llm` error
and fires the planning stop. -/
def onEvent (port : Nat → String → Except String String)
    (validate : String → Except String PlannerTurn)
    (ev : Event) (s : AgentState) : AgentState :=
  match ev with
  | .userInput text target reqId =>
    if target = s.id then
      loop port validate
        { s with currentReqId := some reqId,
                 convo := s.convo ++ [⟨.user, text⟩],
                 steps := 0,
                 interrupted := false,
                 events := s.events ++
                   [.userTurn s.id reqId text, .planningStart s.id reqId] }
    else s
  | .toolResult target tool _reqId ok data =>
    if target = s.id then
      loop port validate
        { s with convo := s.convo ++
                   [⟨.user, "TOOL(" ++ tool ++ ") -> " ++
                     (if ok then "ok" else "error") ++ "\n" ++ sliceTo data 2000⟩],
                 events := s.events ++ [.observation tool ok (sliceTo data 2000)] }
    else s
  | .llmError err target _reqId =>
    if target = s.id then
      emitPlanningStop .error (some err)
        { s with events := s.events ++ [.error "llm" err] }
    else s
  | _ => s

end BuilderAgent

/-- Number of `planning-stop` events in a UI event list. -/
def countStops (events : List UiEvent) : Nat :=
  events.countP fun e =>
    match e with
    | .planningStop _ _ _ _ => true
    | _ => false

/-! ### Concrete fixtures used by witness theorems -/

def stoppedSched : SchedState :=
  { status := .stopped, queue := Queues.empty, notifier := ⟨[], false⟩, ran := [] }

def runningSched : SchedState :=
  { status := .running, queue := Queues.empty, notifier := ⟨[], false⟩, ran := [] }

/-- One suspension during which a producer enqueues a task and a
controller calls `stop()`. -/
def stopWake : WaitWake := ⟨[(Lane.domain, Prio.high, ⟨"t1"⟩)], true⟩

/-- A successful three-chunk generation. -/
def genFixture : GenResult := ⟨["Hello, ", "world", "!"], none⟩

/-- A model port that always returns the same non-JSON text. -/
def portInvalid : Nat → String → Except String String := fun _ _ => .ok "not json"

/-- Validation behaviour on the invalid fixture: always a parse error. -/
def validateFail : String → Except String PlannerTurn :=
  fun _ => .error "Unexpected token"

/-- A model port that always returns the same valid step message. -/
def portStep : Nat → String → Except String String :=
  fun _ _ =>
    .ok "\x7b\"schema_version\":1,\"message\":\x7b\"type\":\"step\",\"step\":1,\"goal\":\"g\"\x7d\x7d"

/-- Validation behaviour on the step fixture: always the step message. -/
def validateStep : String → Except String PlannerTurn :=
  fun _ => .ok ⟨.step 1 "g" none⟩

/-- An agent at the start of an active turn. -/
def agentFixture : AgentState :=
  { id := "agent#1", interrupted := false, steps := 0, currentReqId := some "req-1",
    convo := [], events := [], effects := [], modelCalls := 0 }

/-! ## Theorems -/

theorem signalN_waiterless (n : Nat) (s : NotifierState) (h : s.waitQueue = []) :
    (Notifier.signalN n s).waitQueue = [] ∧
      (1 ≤ n → (Notifier.signalN n s).hasPendingSignal = true) := by
  induction n generalizing s with
  | zero => exact ⟨h, by omega⟩
  | succ k ih =>
    have hs : (Notifier.signalSt s).waitQueue = [] ∧
        (Notifier.signalSt s).hasPendingSignal = true := by
      simp [Notifier.signalSt, Notifier.signal, h]
    rcases k with _ | k
    · simpa [Notifier.signalN] using hs
    · have h2 := ih (Notifier.signalSt s) hs.1
      refine ⟨?_, fun _ => ?_⟩
      · simpa [Notifier.signalN] using h2.1
      · simpa [Notifier.signalN] using h2.2 (by omega)

/-- C1: the Notifier is a single-slot wake-up primitive.  After any
positive number of `signal()` calls on a waiter-less Notifier, the next
`wait()` resolves immediately and consumes the pending flag, a second
`wait()` suspends (the slot is a boolean, not a counter), and `signal()`
resumes exactly the currently registered waiters, clearing the set. -/
theorem notifier_single_slot (s t : NotifierState) (n w w' : Nat)
    (hw : s.waitQueue = []) (hn : 1 ≤ n) :
    (Notifier.wait (Notifier.signalN n s) w).1 = .immediate ∧
    (Notifier.wait (Notifier.signalN n s) w).2.hasPendingSignal = false ∧
    (Notifier.wait (Notifier.wait (Notifier.signalN n s) w).2 w').1 = .suspended ∧
    (Notifier.signal t).1 = t.waitQueue ∧
    (Notifier.signal t).2.waitQueue = [] := by
  obtain ⟨hq, hp⟩ := signalN_waiterless n s hw
  have hp' := hp hn
  refine ⟨?_, ?_, ?_, rfl, rfl⟩ <;> simp [Notifier.wait, hp']

theorem notifier_single_slot_witness :
    (([] : List Nat) = [] ∧ 1 ≤ 3) ∧
    ((Notifier.wait (Notifier.signalN 3 ⟨[], false⟩) 0).1 = .immediate ∧
     (Notifier.wait (Notifier.signalN 3 ⟨[], false⟩) 0).2.hasPendingSignal = false ∧
     (Notifier.wait (Notifier.wait (Notifier.signalN 3 ⟨[], false⟩) 0).2 1).1 = .suspended ∧
     (Notifier.signal ⟨[4, 7], false⟩).1 = NotifierState.waitQueue ⟨[4, 7], false⟩ ∧
     (Notifier.signal ⟨[4, 7], false⟩).2.waitQueue = []) :=
  ⟨⟨rfl, by decide⟩, notifier_single_slot ⟨[], false⟩ ⟨[4, 7], false⟩ 3 0 1 rfl (by decide)⟩

/-- C2: the scheduler dequeues from the first non-empty `(lane, priority)`
cell in the `scanOrder` scan (lanes `domain` then `ui`; within a lane
priorities `high`, `medium`, `low`), and within one cell strictly FIFO
(`tick` removes the head, `enqueue` appends at the back).  Concretely,
`A:low`, `B:high`, `C:medium` enqueued in that order on one lane run as
`B, C, A`. -/
theorem scheduler_priority_order (q : Queues) (h : Queues.count q ≠ 0) :
    getNext q = scanOrder.find? (fun c => !(q.cell c.1 c.2).isEmpty) ∧
    (∃ l p t rest, getNext q = some (l, p) ∧ q.cell l p = t :: rest ∧
      tickSelect q = some (t, q.setCell l p rest)) ∧
    drain 3 exampleQueue = [⟨"B"⟩, ⟨"C"⟩, ⟨"A"⟩] := by
  refine ⟨?_, ?_, by decide⟩
  · rcases q with ⟨⟨dh, dm, dl⟩, ⟨uh, um, ul⟩⟩
    by_cases h1 : dh = [] <;> by_cases h2 : dm = [] <;> by_cases h3 : dl = [] <;>
      by_cases h4 : uh = [] <;> by_cases h5 : um = [] <;> by_cases h6 : ul = [] <;>
      simp_all [getNext, scanOrder, LANES, PRIOS, Queues.cell, Queues.lane,
        LaneQueues.cell]
  · rcases q with ⟨⟨dh, dm, dl⟩, ⟨uh, um, ul⟩⟩
    by_cases h1 : dh = []
    · by_cases h2 : dm = []
      · by_cases h3 : dl = []
        · by_cases h4 : uh = []
          · by_cases h5 : um = []
            · by_cases h6 : ul = []
              · exfalso
                simp [Queues.count, h1, h2, h3, h4, h5, h6] at h
              · obtain ⟨t, rest, hx⟩ := List.exists_cons_of_ne_nil h6
                subst hx
                exact ⟨.ui, .low, t, rest, by simp [getNext, h1, h2, h3, h4, h5], rfl,
                  by simp [tickSelect, getNext, h1, h2, h3, h4, h5, Queues.cell,
                    Queues.lane, LaneQueues.cell]⟩
            · obtain ⟨t, rest, hx⟩ := List.exists_cons_of_ne_nil h5
              subst hx
              exact ⟨.ui, .medium, t, rest, by simp [getNext, h1, h2, h3, h4], rfl,
                by simp [tickSelect, getNext, h1, h2, h3, h4, Queues.cell,
                  Queues.lane, LaneQueues.cell]⟩
          · obtain ⟨t, rest, hx⟩ := List.exists_cons_of_ne_nil h4
            subst hx
            exact ⟨.ui, .high, t, rest, by simp [getNext, h1, h2, h3], rfl,
              by simp [tickSelect, getNext, h1, h2, h3, Queues.cell,
                Queues.lane, LaneQueues.cell]⟩
        · obtain ⟨t, rest, hx⟩ := List.exists_cons_of_ne_nil h3
          subst hx
          exact ⟨.domain, .low, t, rest, by simp [getNext, h1, h2], rfl,
            by simp [tickSelect, getNext, h1, h2, Queues.cell,
              Queues.lane, LaneQueues.cell]⟩
      · obtain ⟨t, rest, hx⟩ := List.exists_cons_of_ne_nil h2
        subst hx
        exact ⟨.domain, .medium, t, rest, by simp [getNext, h1], rfl,
          by simp [tickSelect, getNext, h1, Queues.cell,
            Queues.lane, LaneQueues.cell]⟩
    · obtain ⟨t, rest, hx⟩ := List.exists_cons_of_ne_nil h1
      subst hx
      exact ⟨.domain, .high, t, rest, by simp [getNext], rfl,
        by simp [tickSelect, getNext, Queues.cell, Queues.lane, LaneQueues.cell]⟩

theorem runLoop_not_running (fuel : Nat) (env : List WaitWake) (s : SchedState)
    (h : s.status ≠ .running) : runLoop fuel env s = s := by
  cases fuel <;> simp [runLoop, h]

theorem foldl_enqueue_preserves (l : List (Lane × Prio × Task)) (a : SchedState) :
    (l.foldl (fun a e => a.enqueue e.2.2 e.1 e.2.1) a).status = a.status ∧
    (l.foldl (fun a e => a.enqueue e.2.2 e.1 e.2.1) a).ran = a.ran := by
  induction l generalizing a with
  | nil => exact ⟨rfl, rfl⟩
  | cons x xs ih => simpa [SchedState.enqueue] using ih (a.enqueue x.2.2 x.1 x.2.1)

theorem applyWaitWake_stop (s : SchedState) (w : WaitWake) (hw : w.stopCalled = true) :
    (applyWaitWake s w).status = .stopped ∧ (applyWaitWake s w).ran = s.ran := by
  have hp := foldl_enqueue_preserves w.enqueued s
  simp [applyWaitWake, hw, SchedState.stop, hp.2]

/-- C5: `stopped` is terminal.  `start()` on a stopped scheduler throws the
restart error instead of entering the run loop; the run loop never ticks
from a non-running state (so nothing queued runs after `stop()`); and when
`stop()` races with the wake-up from a suspension, the post-wake re-check
leaves the loop stopped with no further task executed — even though the
racing batch also enqueued work. -/
theorem scheduler_stopped_terminal :
    (∀ fuel env (s : SchedState), s.status = .stopped →
      SchedState.start fuel env s = .error "cannot restart") ∧
    (∀ fuel env (s : SchedState), s.status ≠ .running → runLoop fuel env s = s) ∧
    (∀ fuel env (w : WaitWake) (s : SchedState), s.status = .running →
      tickSelect s.queue = none → s.notifier.hasPendingSignal = false →
      w.stopCalled = true →
      (runLoop fuel (w :: env) s).ran = s.ran ∧
      (1 ≤ fuel → (runLoop fuel (w :: env) s).status = .stopped)) := by
  refine ⟨?_, fun fuel env s h => runLoop_not_running fuel env s h, ?_⟩
  · intro fuel env s h
    simp [SchedState.start, h]
  · intro fuel env w s hrun htick hpend hstop
    cases fuel with
    | zero => exact ⟨rfl, by omega⟩
    | succ n =>
      have hA := applyWaitWake_stop
        { status := .idle, queue := s.queue,
          notifier := { waitQueue := s.notifier.waitQueue ++ [0], hasPendingSignal := false },
          ran := s.ran } w hstop
      have hB : ∀ (e : List WaitWake) (q : Queues) (nt : NotifierState) (r : List String),
          runLoop n e ⟨.stopped, q, nt, r⟩ = ⟨.stopped, q, nt, r⟩ :=
        fun e q nt r => runLoop_not_running n e ⟨.stopped, q, nt, r⟩ (by simp)
      constructor
      · simp only [runLoop, hrun, htick, Notifier.wait, hpend, hA.1]
        simp [hA.1, hB]
        simpa using hA.2
      · intro _
        simp only [runLoop, hrun, htick, Notifier.wait, hpend, hA.1]
        simp [hA.1, hB]

theorem scheduler_priority_order_witness :
    Queues.count exampleQueue ≠ 0 ∧
    (getNext exampleQueue =
        scanOrder.find? (fun c => !(exampleQueue.cell c.1 c.2).isEmpty) ∧
      (∃ l p t rest, getNext exampleQueue = some (l, p) ∧
        exampleQueue.cell l p = t :: rest ∧
        tickSelect exampleQueue = some (t, exampleQueue.setCell l p rest)) ∧
      drain 3 exampleQueue = [⟨"B"⟩, ⟨"C"⟩, ⟨"A"⟩]) :=
  ⟨by decide, scheduler_priority_order exampleQueue (by decide)⟩

theorem scheduler_stopped_terminal_witness :
    stoppedSched.status = .stopped ∧
    SchedState.start 3 [] stoppedSched = .error "cannot restart" ∧
    runLoop 3 [] stoppedSched = stoppedSched ∧
    ((runLoop 2 [stopWake] runningSched).ran = runningSched.ran ∧
      (1 ≤ 2 → (runLoop 2 [stopWake] runningSched).status = .stopped)) :=
  ⟨rfl,
   scheduler_stopped_terminal.1 3 [] stoppedSched rfl,
   scheduler_stopped_terminal.2.1 3 [] stoppedSched (by decide),
   scheduler_stopped_terminal.2.2 2 [] stopWake runningSched rfl (by decide) rfl rfl⟩

/-- C7: the fs port does NOT confine all operations to its root.  The
`safe` check is a string-prefix test on the resolved path, so from root
`/ws` the path `../ws-evil/x` resolves to `/ws-evil/x` — outside the root
directory — yet passes the check, and the write is performed there.
Moreover the `write` branch runs its recursive `mkdir` before `safe`, so
even a rejected path such as `../evil/x` creates the directory `/evil`
outside the root.  This contradicts the intent documented by the code's
own error message ("path escapes workspace") and the spec. -/
theorem fsPort_escapes_root :
    underRoot "/ws" (resolveAbs ("/ws" ++ "/" ++ "../ws-evil/x")) = false ∧
    FsPort.safe "/ws" "../ws-evil/x" = .ok "/ws-evil/x" ∧
    FsPort.run (fun _ => "") "/ws" ⟨"write", "../ws-evil/x", some "hi"⟩ =
      ([.mkdirRecursive "/ws-evil", .writeFile "/ws-evil/x" "hi"],
        { ok := true, data := "ok" }) ∧
    FsPort.run (fun _ => "") "/ws" ⟨"write", "../evil/x", some "hi"⟩ =
      ([.mkdirRecursive "/evil"], { ok := false, data := "path escapes workspace" }) ∧
    underRoot "/ws" "/ws-evil/x" = false ∧ underRoot "/ws" "/evil" = false :=
  ⟨by decide, by decide, by decide, by decide, by decide, by decide⟩

theorem streamTokensOf_nil : streamTokensOf [] = [] := rfl

theorem streamTokensOf_cons (d : Dispatched) (l : List Dispatched) :
    streamTokensOf (d :: l) =
      (match d with | .ui (.streamToken _ t) => [t] | _ => []) ++ streamTokensOf l := by
  rcases d with e | u
  · simp [streamTokensOf]
  · rcases u <;> simp [streamTokensOf]

theorem streamTokensOf_append (l₁ l₂ : List Dispatched) :
    streamTokensOf (l₁ ++ l₂) = streamTokensOf l₁ ++ streamTokensOf l₂ := by
  simp [streamTokensOf]

theorem streamTokensOf_chunks (chunks : List String) (target reqId : String) :
    streamTokensOf (chunks.flatMap fun c =>
      [.internal (.tokenChunk c target reqId), .ui (.streamToken target c)]) = chunks := by
  induction chunks with
  | nil => rfl
  | cons c cs ih => simpa [streamTokensOf] using ih

/-- C8: for a model port that yields the same finite chunk sequence
without error to both consumers, the concatenation of the `stream-token`
texts emitted by the streaming `run` equals the buffered string returned
by the non-streaming `runOnce`, and `runOnce` emits no per-token
events. -/
theorem llm_streaming_refines_runOnce (prompt target reqId : String) (g : GenResult)
    (h : g.error = none) :
    (LlmAdapter.runOnce prompt target reqId g).1 =
      .ok (String.join (streamTokensOf (LlmAdapter.run prompt target reqId g))) ∧
    streamTokensOf (LlmAdapter.runOnce prompt target reqId g).2 = [] := by
  rcases g with ⟨chunks, err⟩
  simp only at h
  subst h
  constructor
  · simp [LlmAdapter.run, LlmAdapter.runOnce, streamTokensOf_cons, streamTokensOf_append,
      streamTokensOf_chunks, streamTokensOf_nil]
  · simp [LlmAdapter.runOnce, streamTokensOf_cons, streamTokensOf_nil]

theorem llm_streaming_refines_runOnce_witness :
    genFixture.error = none ∧
    ((LlmAdapter.runOnce "ping" "agent#1" "r1" genFixture).1 =
      .ok (String.join (streamTokensOf (LlmAdapter.run "ping" "agent#1" "r1" genFixture))) ∧
     streamTokensOf (LlmAdapter.runOnce "ping" "agent#1" "r1" genFixture).2 = []) :=
  ⟨rfl, llm_streaming_refines_runOnce "ping" "agent#1" "r1" genFixture rfl⟩

theorem emitPlanningStop_none (reason : StopReason) (detail : Option String)
    (t : AgentState) (h : t.currentReqId = none) :
    BuilderAgent.emitPlanningStop reason detail t = t := by
  simp [BuilderAgent.emitPlanningStop, h]

theorem emitPlanningStop_some (reason : StopReason) (detail : Option String)
    (t : AgentState) (r : String) (h : t.currentReqId = some r) :
    BuilderAgent.emitPlanningStop reason detail t =
      { t with events := t.events ++ [.planningStop t.id r reason detail],
               currentReqId := none } := by
  simp [BuilderAgent.emitPlanningStop, h]

/-- C6: a planning round that begins with the interrupted flag set emits a
status event and the `interrupted` planning-stop and makes zero model
calls — the flag is checked at the top of the round, before any model
call. -/
theorem interrupt_checked_first (port : Nat → String → Except String String)
    (validate : String → Except String PlannerTurn) (s : AgentState)
    (h : s.interrupted = true) :
    (BuilderAgent.loop port validate s).modelCalls = s.modelCalls ∧
    BuilderAgent.loop port validate s =
      BuilderAgent.emitPlanningStop .interrupted none
        { s with events := s.events ++ [.status "interrupted"] } ∧
    ∀ r, s.currentReqId = some r →
      (BuilderAgent.loop port validate s).events =
        s.events ++ [.status "interrupted", .planningStop s.id r .interrupted none] := by
  have hl : BuilderAgent.loop port validate s =
      BuilderAgent.emitPlanningStop .interrupted none
        { s with events := s.events ++ [.status "interrupted"] } := by
    rw [BuilderAgent.loop]
    simp [h]
  refine ⟨?_, hl, ?_⟩
  · rw [hl]
    rcases hr : s.currentReqId with _ | r
    · rw [emitPlanningStop_none _ _ _ (by simp [hr])]
    · rw [emitPlanningStop_some _ _ _ r (by simp [hr])]
  · intro r hr
    rw [hl, emitPlanningStop_some _ _ _ r (by simp [hr])]
    simp

theorem interrupt_checked_first_witness :
    (BuilderAgent.interrupt agentFixture).interrupted = true ∧
    ((BuilderAgent.loop portStep validateStep
        (BuilderAgent.interrupt agentFixture)).modelCalls =
      (BuilderAgent.interrupt agentFixture).modelCalls ∧
     BuilderAgent.loop portStep validateStep (BuilderAgent.interrupt agentFixture) =
       BuilderAgent.emitPlanningStop .interrupted none
         { BuilderAgent.interrupt agentFixture with
             events := (BuilderAgent.interrupt agentFixture).events ++
               [.status "interrupted"] } ∧
     ∀ r, (BuilderAgent.interrupt agentFixture).currentReqId = some r →
       (BuilderAgent.loop portStep validateStep
           (BuilderAgent.interrupt agentFixture)).events =
         (BuilderAgent.interrupt agentFixture).events ++
           [.status "interrupted",
            .planningStop (BuilderAgent.interrupt agentFixture).id r .interrupted none]) :=
  ⟨rfl, interrupt_checked_first portStep validateStep (BuilderAgent.interrupt agentFixture) rfl⟩

theorem parseOrRepair_invalid (port : Nat → String → Except String String)
    (validate : String → Except String PlannerTurn)
    (hport : ∀ n p, ∃ raw, port n p = .ok raw ∧ ∃ e, validate raw = .error e) :
    ∀ (r : Nat) (raw : String) (convo : List Msg) (calls : Nat),
      (∃ e, validate raw = .error e) →
      ∃ e' convo',
        BuilderAgent.parseOrRepair port validate raw r convo calls =
          (.error e', convo', calls + r) := by
  intro r
  induction r with
  | zero =>
    rintro raw convo calls ⟨e, he⟩
    refine ⟨if sliceTo e 2000 = "" then "unknown validation error" else sliceTo e 2000,
      convo, ?_⟩
    simp [BuilderAgent.parseOrRepair, he]
  | succ k ih =>
    rintro raw convo calls ⟨e, he⟩
    obtain ⟨raw2, hok, he2⟩ := hport calls (BuilderAgent.repairPrompt
      (convo ++ [⟨.user, BuilderAgent.repairMsgText (sliceTo e 2000)⟩]))
    obtain ⟨e', convo', hrec⟩ :=
      ih raw2 (convo ++ [⟨.user, BuilderAgent.repairMsgText (sliceTo e 2000)⟩]) (calls + 1) he2
    refine ⟨e', convo', ?_⟩
    have harith : calls + 1 + k = calls + (k + 1) := by omega
    simp [BuilderAgent.parseOrRepair, he, hok, hrec, harith]

/-- C3: a planning round in which every model response fails validation
makes exactly `MAX_REPAIRS + 1` model calls in total (three), then emits
one planner error and the `error` planning-stop; the round increments the
step counter exactly once (repair calls do not).  Termination of the
repair loop is witnessed by `parseOrRepair` being a total function. -/
theorem repair_bounded_rounds (port : Nat → String → Except String String)
    (validate : String → Except String PlannerTurn) (s : AgentState) (r : String)
    (hreq : s.currentReqId = some r) (hintf : s.interrupted = false)
    (hsteps : s.steps < BuilderAgent.MAX_STEPS)
    (hport : ∀ n p, ∃ raw, port n p = .ok raw ∧ ∃ e, validate raw = .error e) :
    BuilderAgent.MAX_REPAIRS + 1 = 3 ∧
    ∃ msg convo',
      BuilderAgent.loop port validate s =
        { s with steps := s.steps + 1,
                 convo := convo',
                 modelCalls := s.modelCalls + (BuilderAgent.MAX_REPAIRS + 1),
                 events := s.events ++
                   [.error "planner" msg, .planningStop s.id r .error (some msg)],
                 currentReqId := none } := by
  refine ⟨rfl, ?_⟩
  obtain ⟨raw, hok, he⟩ := hport s.modelCalls (BuilderAgent.loopPrompt s.convo)
  obtain ⟨e', convo', hpr⟩ := parseOrRepair_invalid port validate hport
    BuilderAgent.MAX_REPAIRS raw s.convo (s.modelCalls + 1) he
  refine ⟨"planner output invalid: " ++ e', convo', ?_⟩
  have hns : ¬ BuilderAgent.MAX_STEPS ≤ s.steps := by omega
  have harith : s.modelCalls + 1 + BuilderAgent.MAX_REPAIRS =
      s.modelCalls + (BuilderAgent.MAX_REPAIRS + 1) := by omega
  rw [BuilderAgent.loop]
  simp only [hintf, Bool.false_eq_true, if_false, hns, hok, hpr, harith]
  rw [emitPlanningStop_some _ _ _ r (by simp [hreq])]
  simp

theorem repair_bounded_rounds_witness :
    (agentFixture.currentReqId = some "req-1" ∧ agentFixture.interrupted = false ∧
      agentFixture.steps < BuilderAgent.MAX_STEPS) ∧
    (BuilderAgent.MAX_REPAIRS + 1 = 3 ∧
     ∃ msg convo',
       BuilderAgent.loop portInvalid validateFail agentFixture =
         { agentFixture with
             steps := agentFixture.steps + 1,
             convo := convo',
             modelCalls := agentFixture.modelCalls + (BuilderAgent.MAX_REPAIRS + 1),
             events := agentFixture.events ++
               [.error "planner" msg,
                .planningStop agentFixture.id "req-1" .error (some msg)],
             currentReqId := none }) :=
  ⟨⟨rfl, rfl, by decide⟩,
   repair_bounded_rounds portInvalid validateFail agentFixture "req-1" rfl rfl (by decide)
     (fun n p => ⟨"not json", rfl, "Unexpected token", rfl⟩)⟩

theorem loop_all_steps (port : Nat → String → Except String String)
    (validate : String → Except String PlannerTurn)
    (hport : ∀ n p, ∃ raw st goal say, port n p = .ok raw ∧
      validate raw = .ok ⟨.step st goal say⟩) :
    ∀ (d : Nat) (s : AgentState) (r : String), s.currentReqId = some r →
      s.interrupted = false → s.steps + d = BuilderAgent.MAX_STEPS →
      ∃ mid convo',
        BuilderAgent.loop port validate s =
          { s with steps := BuilderAgent.MAX_STEPS,
                   convo := convo',
                   modelCalls := s.modelCalls + d,
                   currentReqId := none,
                   events := s.events ++ mid ++
                     [.status "max-steps",
                      .planningStop s.id r .maxSteps
                        (some ("Reached " ++ toString BuilderAgent.MAX_STEPS ++
                          " planner steps"))] } := by
  intro d
  induction d with
  | zero =>
    intro s r hreq hintf hsteps
    refine ⟨[], s.convo, ?_⟩
    have hms : BuilderAgent.MAX_STEPS ≤ s.steps := by omega
    rw [BuilderAgent.loop]
    simp only [hintf, Bool.false_eq_true, if_false, hms, if_true]
    rw [emitPlanningStop_some _ _ _ r (by simp [hreq])]
    have hst : s.steps = BuilderAgent.MAX_STEPS := by omega
    simp [hst]
  | succ k ih =>
    intro s r hreq hintf hsteps
    obtain ⟨raw, st, goal, say, hok, hval⟩ :=
      hport s.modelCalls (BuilderAgent.loopPrompt s.convo)
    have hns : ¬ BuilderAgent.MAX_STEPS ≤ s.steps := by omega
    obtain ⟨mid', convo'', hrec⟩ := ih
      { s with interrupted := false,
               steps := s.steps + 1,
               convo := s.convo ++ [⟨.assistant, BuilderAgent.stringifyMsg (.step st goal say)⟩],
               modelCalls := s.modelCalls + 1,
               events := s.events ++ [.step st goal say] } r (by simp [hreq]) (by simp)
      (by simp; omega)
    refine ⟨.step st goal say :: mid', convo'', ?_⟩
    rw [BuilderAgent.loop]
    simp only [hintf, Bool.false_eq_true, if_false, hns, hok, if_true,
      BuilderAgent.parseOrRepair, hval]
    rw [hrec]
    have harith : s.modelCalls + 1 + k = s.modelCalls + (k + 1) := by omega
    simp [harith]

/-- C4: for a model port that returns a valid `step` message on every
round, a user turn performs exactly `MAX_STEPS` (12) planning rounds —
the step counter being reset to zero at the start of the turn and
incremented once per round, with one model call per round — then stops
without a further model call, emitting a `max-steps` status event and a
`max-steps` planning-stop. -/
theorem step_budget (port : Nat → String → Except String String)
    (validate : String → Except String PlannerTurn) (s : AgentState)
    (text reqId : String)
    (hport : ∀ n p, ∃ raw st goal say, port n p = .ok raw ∧
      validate raw = .ok ⟨.step st goal say⟩) :
    BuilderAgent.MAX_STEPS = 12 ∧
    ∃ mid convo',
      BuilderAgent.onEvent port validate (.userInput text s.id reqId) s =
        { s with steps := BuilderAgent.MAX_STEPS,
                 interrupted := false,
                 currentReqId := none,
                 convo := convo',
                 modelCalls := s.modelCalls + BuilderAgent.MAX_STEPS,
                 events := s.events ++
                   [.userTurn s.id reqId text, .planningStart s.id reqId] ++ mid ++
                   [.status "max-steps",
                    .planningStop s.id reqId .maxSteps
                      (some ("Reached " ++ toString BuilderAgent.MAX_STEPS ++
                        " planner steps"))] } := by
  refine ⟨rfl, ?_⟩
  obtain ⟨mid, convo', hrec⟩ := loop_all_steps port validate hport
    BuilderAgent.MAX_STEPS
    { s with currentReqId := some reqId,
             convo := s.convo ++ [⟨.user, text⟩],
             steps := 0,
             interrupted := false,
             events := s.events ++ [.userTurn s.id reqId text, .planningStart s.id reqId] }
    reqId rfl rfl (by simp)
  refine ⟨mid, convo', ?_⟩
  rw [BuilderAgent.onEvent]
  simp only [if_true, if_pos rfl]
  rw [hrec]

theorem step_budget_witness :
    BuilderAgent.MAX_STEPS = 12 ∧
    ∃ mid convo',
      BuilderAgent.onEvent portStep validateStep
          (.userInput "build it" agentFixture.id "req-2") agentFixture =
        { agentFixture with
            steps := BuilderAgent.MAX_STEPS,
            interrupted := false,
            currentReqId := none,
            convo := convo',
            modelCalls := agentFixture.modelCalls + BuilderAgent.MAX_STEPS,
            events := agentFixture.events ++
              [.userTurn agentFixture.id "req-2" "build it",
               .planningStart agentFixture.id "req-2"] ++ mid ++
              [.status "max-steps",
               .planningStop agentFixture.id "req-2" .maxSteps
                 (some ("Reached " ++ toString BuilderAgent.MAX_STEPS ++
                   " planner steps"))] } :=
  step_budget portStep validateStep agentFixture "build it" "req-2"
    (fun _ _ => ⟨"\x7b\"schema_version\":1,\"message\":\x7b\"type\":\"step\",\"step\":1,\"goal\":\"g\"\x7d\x7d",
      1, "g", none, rfl, rfl⟩)

theorem countStops_append (l₁ l₂ : List UiEvent) :
    countStops (l₁ ++ l₂) = countStops l₁ + countStops l₂ := by
  simp [countStops, List.countP_append]

theorem parseOrRepair_convo (port : Nat → String → Except String String)
    (validate : String → Except String PlannerTurn) :
    ∀ (r : Nat) (raw : String) (convo : List Msg) (calls : Nat),
      ∃ w, (BuilderAgent.parseOrRepair port validate raw r convo calls).2.1 = convo ++ w := by
  intro r
  induction r with
  | zero =>
    intro raw convo calls
    cases hv : validate raw with
    | error e => exact ⟨[], by simp [BuilderAgent.parseOrRepair, hv]⟩
    | ok t => exact ⟨[], by simp [BuilderAgent.parseOrRepair, hv]⟩
  | succ k ih =>
    intro raw convo calls
    cases hv : validate raw with
    | ok t => exact ⟨[], by simp [BuilderAgent.parseOrRepair, hv]⟩
    | error e =>
      cases hp : port calls (BuilderAgent.repairPrompt
          (convo ++ [⟨.user, BuilderAgent.repairMsgText (sliceTo e 2000)⟩])) with
      | error e2 =>
        exact ⟨[⟨.user, BuilderAgent.repairMsgText (sliceTo e 2000)⟩],
          by simp [BuilderAgent.parseOrRepair, hv, hp]⟩
      | ok raw2 =>
        obtain ⟨w, hw⟩ := ih raw2
          (convo ++ [⟨.user, BuilderAgent.repairMsgText (sliceTo e 2000)⟩]) (calls + 1)
        refine ⟨⟨.user, BuilderAgent.repairMsgText (sliceTo e 2000)⟩ :: w, ?_⟩
        rw [BuilderAgent.parseOrRepair]
        simp only [hv, hp]
        rw [hw]
        simp

theorem emit_invariants (reason : StopReason) (detail : Option String) (s t : AgentState)
    (ev : UiEvent) (hev : countStops [ev] = 0)
    (hevents : t.events = s.events ++ [ev]) (hreq : t.currentReqId = s.currentReqId)
    (hconvo : ∃ u, t.convo = s.convo ++ u) :
    (∃ x, (BuilderAgent.emitPlanningStop reason detail t).events = s.events ++ x) ∧
    (∃ u, (BuilderAgent.emitPlanningStop reason detail t).convo = s.convo ++ u) ∧
    countStops (BuilderAgent.emitPlanningStop reason detail t).events ≤
      countStops s.events + (if s.currentReqId = none then 0 else 1) ∧
    (s.currentReqId = none →
      countStops (BuilderAgent.emitPlanningStop reason detail t).events =
        countStops s.events) := by
  obtain ⟨u, hu⟩ := hconvo
  cases h : t.currentReqId with
  | none =>
    rw [emitPlanningStop_none _ _ _ h]
    refine ⟨⟨[ev], hevents⟩, ⟨u, hu⟩, ?_, ?_⟩
    · rw [hevents, countStops_append, hev]
      split <;> omega
    · intro _
      rw [hevents, countStops_append, hev]
      omega
  | some r =>
    rw [emitPlanningStop_some _ _ _ r h]
    have hs : s.currentReqId = some r := hreq ▸ h
    have hc : countStops ((s.events ++ [ev]) ++ [UiEvent.planningStop t.id r reason detail]) =
        countStops s.events + 1 := by
      rw [countStops_append, countStops_append, hev]
      simp [countStops]
    refine ⟨⟨[ev] ++ [.planningStop t.id r reason detail], by simp [hevents]⟩,
      ⟨u, by simp [hu]⟩, ?_, ?_⟩
    · show countStops (t.events ++ [UiEvent.planningStop t.id r reason detail]) ≤ _
      rw [hevents, hc, hs]
      simp
    · intro hnone
      rw [hnone] at hs
      cases hs

theorem loop_interrupted (port : Nat → String → Except String String)
    (validate : String → Except String PlannerTurn) (s : AgentState)
    (h : s.interrupted = true) :
    BuilderAgent.loop port validate s =
      BuilderAgent.emitPlanningStop .interrupted none
        { s with events := s.events ++ [.status "interrupted"] } := by
  rw [BuilderAgent.loop]
  simp [h]

theorem loop_maxsteps (port : Nat → String → Except String String)
    (validate : String → Except String PlannerTurn) (s : AgentState)
    (h1 : s.interrupted = false) (h2 : BuilderAgent.MAX_STEPS ≤ s.steps) :
    BuilderAgent.loop port validate s =
      BuilderAgent.emitPlanningStop .maxSteps
        (some ("Reached " ++ toString BuilderAgent.MAX_STEPS ++ " planner steps"))
        { s with events := s.events ++ [.status "max-steps"] } := by
  rw [BuilderAgent.loop]
  simp [h1, h2]

theorem loop_port_error (port : Nat → String → Except String String)
    (validate : String → Except String PlannerTurn) (s : AgentState) (e : String)
    (h1 : s.interrupted = false) (h2 : ¬ BuilderAgent.MAX_STEPS ≤ s.steps)
    (he : port s.modelCalls (BuilderAgent.loopPrompt s.convo) = .error e) :
    BuilderAgent.loop port validate s =
      BuilderAgent.emitPlanningStop .error (some e)
        { s with steps := s.steps + 1, modelCalls := s.modelCalls + 1,
                 events := s.events ++ [.error "planner" e] } := by
  rw [BuilderAgent.loop]
  simp [h1, h2, he]

theorem loop_parse_error (port : Nat → String → Except String String)
    (validate : String → Except String PlannerTurn) (s : AgentState)
    (raw e : String) (convo' : List Msg) (calls' : Nat)
    (h1 : s.interrupted = false) (h2 : ¬ BuilderAgent.MAX_STEPS ≤ s.steps)
    (hok : port s.modelCalls (BuilderAgent.loopPrompt s.convo) = .ok raw)
    (hpr : BuilderAgent.parseOrRepair port validate raw BuilderAgent.MAX_REPAIRS
      s.convo (s.modelCalls + 1) = (.error e, convo', calls')) :
    BuilderAgent.loop port validate s =
      BuilderAgent.emitPlanningStop .error (some ("planner output invalid: " ++ e))
        { s with steps := s.steps + 1, convo := convo', modelCalls := calls',
                 events := s.events ++ [.error "planner" ("planner output invalid: " ++ e)] } := by
  rw [BuilderAgent.loop]
  simp [h1, h2, hok, hpr]

theorem loop_step_msg (port : Nat → String → Except String String)
    (validate : String → Except String PlannerTurn) (s : AgentState)
    (raw : String) (st : Nat) (goal : String) (say : Option String)
    (convo' : List Msg) (calls' : Nat)
    (h1 : s.interrupted = false) (h2 : ¬ BuilderAgent.MAX_STEPS ≤ s.steps)
    (hok : port s.modelCalls (BuilderAgent.loopPrompt s.convo) = .ok raw)
    (hpr : BuilderAgent.parseOrRepair port validate raw BuilderAgent.MAX_REPAIRS
      s.convo (s.modelCalls + 1) = (.ok ⟨.step st goal say⟩, convo', calls')) :
    BuilderAgent.loop port validate s =
      BuilderAgent.loop port validate
        { s with steps := s.steps + 1,
                 convo := convo' ++ [⟨.assistant, BuilderAgent.stringifyMsg (.step st goal say)⟩],
                 modelCalls := calls',
                 events := s.events ++ [.step st goal say] } := by
  conv_lhs => rw [BuilderAgent.loop]
  simp [h1, h2, hok, hpr]

theorem loop_action_msg (port : Nat → String → Except String String)
    (validate : String → Except String PlannerTurn) (s : AgentState)
    (raw : String) (st : Nat) (tid : String) (tool : ToolName) (args : ToolArgs)
    (say : Option String) (convo' : List Msg) (calls' : Nat)
    (h1 : s.interrupted = false) (h2 : ¬ BuilderAgent.MAX_STEPS ≤ s.steps)
    (hok : port s.modelCalls (BuilderAgent.loopPrompt s.convo) = .ok raw)
    (hpr : BuilderAgent.parseOrRepair port validate raw BuilderAgent.MAX_REPAIRS
      s.convo (s.modelCalls + 1) = (.ok ⟨.action st tid tool args say⟩, convo', calls')) :
    BuilderAgent.loop port validate s =
      { s with steps := s.steps + 1,
               convo := convo' ++
                 [⟨.assistant, BuilderAgent.stringifyMsg (.action st tid tool args say)⟩],
               modelCalls := calls',
               events := s.events ++ [.action st tool tid args say],
               effects := s.effects ++ [.toolCall tool args s.id] } := by
  rw [BuilderAgent.loop]
  simp [h1, h2, hok, hpr]

theorem loop_deliverable_msg (port : Nat → String → Except String String)
    (validate : String → Except String PlannerTurn) (s : AgentState)
    (raw : String) (st : Nat) (kind : DeliverableKind) (value : String)
    (meta say : Option String) (convo' : List Msg) (calls' : Nat)
    (h1 : s.interrupted = false) (h2 : ¬ BuilderAgent.MAX_STEPS ≤ s.steps)
    (hok : port s.modelCalls (BuilderAgent.loopPrompt s.convo) = .ok raw)
    (hpr : BuilderAgent.parseOrRepair port validate raw BuilderAgent.MAX_REPAIRS
      s.convo (s.modelCalls + 1) = (.ok ⟨.deliverable st kind value meta say⟩, convo', calls')) :
    BuilderAgent.loop port validate s =
      BuilderAgent.loop port validate
        { s with steps := s.steps + 1,
                 convo := convo' ++
                   [⟨.assistant, BuilderAgent.stringifyMsg (.deliverable st kind value meta say)⟩],
                 modelCalls := calls',
                 events := s.events ++ [.deliverable st kind value meta say] } := by
  conv_lhs => rw [BuilderAgent.loop]
  simp [h1, h2, hok, hpr]

theorem loop_final_msg (port : Nat → String → Except String String)
    (validate : String → Except String PlannerTurn) (s : AgentState)
    (raw : String) (st : Nat) (summary : String) (dels : List DeliverableRef)
    (convo' : List Msg) (calls' : Nat)
    (h1 : s.interrupted = false) (h2 : ¬ BuilderAgent.MAX_STEPS ≤ s.steps)
    (hok : port s.modelCalls (BuilderAgent.loopPrompt s.convo) = .ok raw)
    (hpr : BuilderAgent.parseOrRepair port validate raw BuilderAgent.MAX_REPAIRS
      s.convo (s.modelCalls + 1) = (.ok ⟨.final st summary dels⟩, convo', calls')) :
    BuilderAgent.loop port validate s =
      BuilderAgent.emitPlanningStop .final none
        { s with steps := s.steps + 1,
                 convo := convo' ++
                   [⟨.assistant, BuilderAgent.stringifyMsg (.final st summary dels)⟩],
                 modelCalls := calls',
                 events := s.events ++ [.final st summary.trim dels] } := by
  rw [BuilderAgent.loop]
  simp [h1, h2, hok, hpr]

theorem loop_invariants (port : Nat → String → Except String String)
    (validate : String → Except String PlannerTurn) :
    ∀ (d : Nat) (s : AgentState), BuilderAgent.MAX_STEPS - s.steps ≤ d →
      (∃ t, (BuilderAgent.loop port validate s).events = s.events ++ t) ∧
      (∃ u, (BuilderAgent.loop port validate s).convo = s.convo ++ u) ∧
      countStops (BuilderAgent.loop port validate s).events ≤
        countStops s.events + (if s.currentReqId = none then 0 else 1) ∧
      (s.currentReqId = none →
        countStops (BuilderAgent.loop port validate s).events = countStops s.events) := by
  intro d
  induction d with
  | zero =>
    intro s hd
    have hms : BuilderAgent.MAX_STEPS ≤ s.steps := by omega
    cases hi : s.interrupted with
    | true =>
      rw [loop_interrupted port validate s hi]
      exact emit_invariants _ _ s _ (.status "interrupted") rfl rfl rfl ⟨[], by simp⟩
    | false =>
      rw [loop_maxsteps port validate s hi hms]
      exact emit_invariants _ _ s _ (.status "max-steps") rfl rfl rfl ⟨[], by simp⟩
  | succ k ih =>
    intro s hd
    cases hi : s.interrupted with
    | true =>
      rw [loop_interrupted port validate s hi]
      exact emit_invariants _ _ s _ (.status "interrupted") rfl rfl rfl ⟨[], by simp⟩
    | false =>
      by_cases hms : BuilderAgent.MAX_STEPS ≤ s.steps
      · rw [loop_maxsteps port validate s hi hms]
        exact emit_invariants _ _ s _ (.status "max-steps") rfl rfl rfl ⟨[], by simp⟩
      · cases hp : port s.modelCalls (BuilderAgent.loopPrompt s.convo) with
        | error e =>
          rw [loop_port_error port validate s e hi hms hp]
          exact emit_invariants _ _ s _ (.error "planner" e) rfl rfl rfl ⟨[], by simp⟩
        | ok raw =>
          obtain ⟨w, hw⟩ := parseOrRepair_convo port validate
            BuilderAgent.MAX_REPAIRS raw s.convo (s.modelCalls + 1)
          rcases hpr : BuilderAgent.parseOrRepair port validate raw
            BuilderAgent.MAX_REPAIRS s.convo (s.modelCalls + 1) with ⟨res, convo', calls'⟩
          rw [hpr] at hw
          simp only at hw
          cases res with
          | error e =>
            rw [loop_parse_error port validate s raw e convo' calls' hi hms hp hpr]
            exact emit_invariants _ _ s _
              (.error "planner" ("planner output invalid: " ++ e)) rfl rfl rfl ⟨w, hw⟩
          | ok turn =>
            obtain ⟨msg⟩ := turn
            cases msg with
            | step st goal say =>
              rw [loop_step_msg port validate s raw st goal say convo' calls' hi hms hp hpr]
              obtain ⟨⟨t1, ht1⟩, ⟨u1, hu1⟩, hb, heqn⟩ := ih
                { s with steps := s.steps + 1,
                         convo := convo' ++ [⟨.assistant,
                           BuilderAgent.stringifyMsg (.step st goal say)⟩],
                         modelCalls := calls',
                         events := s.events ++ [.step st goal say] }
                (by simp; omega)
              refine ⟨⟨.step st goal say :: t1, by simpa using ht1⟩,
                ⟨w ++ [⟨.assistant, BuilderAgent.stringifyMsg (.step st goal say)⟩] ++ u1,
                  by simpa [hw] using hu1⟩, ?_, ?_⟩
              · refine le_trans hb ?_
                rw [countStops_append]
                have hz : countStops [UiEvent.step st goal say] = 0 := rfl
                simp [hz]
              · intro hnone
                have := heqn (by simpa using hnone)
                rw [this, countStops_append]
                simp [show countStops [UiEvent.step st goal say] = 0 from rfl]
            | action st tid tool args say =>
              rw [loop_action_msg port validate s raw st tid tool args say convo' calls'
                hi hms hp hpr]
              refine ⟨⟨[.action st tool tid args say], by simp⟩,
                ⟨w ++ [⟨.assistant, BuilderAgent.stringifyMsg (.action st tid tool args say)⟩],
                  by simp [hw]⟩, ?_, ?_⟩
              · show countStops (s.events ++ [UiEvent.action st tool tid args say]) ≤ _
                rw [countStops_append]
                split <;> simp [show countStops [UiEvent.action st tool tid args say] = 0 from rfl]
              · intro _
                show countStops (s.events ++ [UiEvent.action st tool tid args say]) = _
                rw [countStops_append]
                simp [show countStops [UiEvent.action st tool tid args say] = 0 from rfl]
            | deliverable st kind value meta say =>
              rw [loop_deliverable_msg port validate s raw st kind value meta say convo' calls'
                hi hms hp hpr]
              obtain ⟨⟨t1, ht1⟩, ⟨u1, hu1⟩, hb, heqn⟩ := ih
                { s with steps := s.steps + 1,
                         convo := convo' ++ [⟨.assistant,
                           BuilderAgent.stringifyMsg (.deliverable st kind value meta say)⟩],
                         modelCalls := calls',
                         events := s.events ++ [.deliverable st kind value meta say] }
                (by simp; omega)
              refine ⟨⟨.deliverable st kind value meta say :: t1, by simpa using ht1⟩,
                ⟨w ++ [⟨.assistant,
                    BuilderAgent.stringifyMsg (.deliverable st kind value meta say)⟩] ++ u1,
                  by simpa [hw] using hu1⟩, ?_, ?_⟩
              · refine le_trans hb ?_
                rw [countStops_append]
                simp [show countStops [UiEvent.deliverable st kind value meta say] = 0 from rfl]
              · intro hnone
                have := heqn (by simpa using hnone)
                rw [this, countStops_append]
                simp [show countStops [UiEvent.deliverable st kind value meta say] = 0 from rfl]
            | final st summary dels =>
              rw [loop_final_msg port validate s raw st summary dels convo' calls'
                hi hms hp hpr]
              exact emit_invariants _ _ s _ (.final st summary.trim dels) rfl rfl rfl
                ⟨w ++ [⟨.assistant, BuilderAgent.stringifyMsg (.final st summary dels)⟩],
                  by simp [hw]⟩

/-- C9: per active request id, at most one `planning-stop` is emitted.
`emitPlanningStop` is a no-op without an active request id; with one it
emits exactly one `planning-stop` carrying that id and clears it; and a
whole planning loop adds at most one `planning-stop` when a request is
active and none at all when no request is active. -/
theorem planning_stop_at_most_once :
    (∀ (reason : StopReason) (detail : Option String) (s : AgentState),
      s.currentReqId = none → BuilderAgent.emitPlanningStop reason detail s = s) ∧
    (∀ (reason : StopReason) (detail : Option String) (s : AgentState) (r : String),
      s.currentReqId = some r →
      (BuilderAgent.emitPlanningStop reason detail s).events =
        s.events ++ [.planningStop s.id r reason detail] ∧
      (BuilderAgent.emitPlanningStop reason detail s).currentReqId = none) ∧
    (∀ (port : Nat → String → Except String String)
        (validate : String → Except String PlannerTurn) (s : AgentState),
      countStops (BuilderAgent.loop port validate s).events ≤
        countStops s.events + (if s.currentReqId = none then 0 else 1)) ∧
    (∀ (port : Nat → String → Except String String)
        (validate : String → Except String PlannerTurn) (s : AgentState),
      s.currentReqId = none →
      countStops (BuilderAgent.loop port validate s).events = countStops s.events) := by
  refine ⟨?_, ?_, ?_, ?_⟩
  · exact fun reason detail s h => emitPlanningStop_none reason detail s h
  · intro reason detail s r h
    rw [emitPlanningStop_some reason detail s r h]
    exact ⟨rfl, rfl⟩
  · intro port validate s
    exact (loop_invariants port validate BuilderAgent.MAX_STEPS s (by omega)).2.2.1
  · intro port validate s h
    exact (loop_invariants port validate BuilderAgent.MAX_STEPS s (by omega)).2.2.2 h

theorem planning_stop_at_most_once_witness :
    (agentFixture.currentReqId = some "req-1" ∧
      ((BuilderAgent.emitPlanningStop .final none agentFixture).events =
        agentFixture.events ++
          [.planningStop agentFixture.id "req-1" .final none] ∧
       (BuilderAgent.emitPlanningStop .final none agentFixture).currentReqId = none)) ∧
    countStops (BuilderAgent.loop portInvalid validateFail agentFixture).events ≤
      countStops agentFixture.events +
        (if agentFixture.currentReqId = none then 0 else 1) ∧
    BuilderAgent.emitPlanningStop .error none
        { agentFixture with currentReqId := none } =
      { agentFixture with currentReqId := none } :=
  ⟨⟨rfl, planning_stop_at_most_once.2.1 .final none agentFixture "req-1" rfl⟩,
   planning_stop_at_most_once.2.2.1 portInvalid validateFail agentFixture,
   planning_stop_at_most_once.1 .error none { agentFixture with currentReqId := none } rfl⟩

/-- C10: a handled `ToolResult` appends the payload truncated to its
first 2000 characters both to the transcript (as a user-role entry) and
to the `observation` UI event, before any further loop activity; payloads
of at most 2000 characters pass through unchanged. -/
theorem toolresult_truncated (port : Nat → String → Except String String)
    (validate : String → Except String PlannerTurn) (s : AgentState)
    (target tool : String) (reqId : Option String) (ok : Bool) (data : String)
    (htarget : target = s.id) :
    (∃ t u,
      (BuilderAgent.onEvent port validate (.toolResult target tool reqId ok data) s).events =
        s.events ++ [.observation tool ok (sliceTo data 2000)] ++ t ∧
      (BuilderAgent.onEvent port validate (.toolResult target tool reqId ok data) s).convo =
        s.convo ++ [⟨.user, "TOOL(" ++ tool ++ ") -> " ++
          (if ok then "ok" else "error") ++ "\n" ++ sliceTo data 2000⟩] ++ u) ∧
    (data.length ≤ 2000 → sliceTo data 2000 = data) ∧
    (sliceTo data 2000).length ≤ 2000 := by
  subst htarget
  refine ⟨?_, ?_, ?_⟩
  · rw [BuilderAgent.onEvent]
    simp only [if_pos rfl]
    obtain ⟨⟨t1, ht1⟩, ⟨u1, hu1⟩, _, _⟩ := loop_invariants port validate
      BuilderAgent.MAX_STEPS
      { s with convo := s.convo ++ [⟨.user, "TOOL(" ++ tool ++ ") -> " ++
                 (if ok then "ok" else "error") ++ "\n" ++ sliceTo data 2000⟩],
               events := s.events ++ [.observation tool ok (sliceTo data 2000)] }
      (by omega)
    exact ⟨t1, u1, by simpa using ht1, by simpa using hu1⟩
  · intro hlen
    cases data with
    | mk l =>
      show String.mk (l.take 2000) = String.mk l
      exact congrArg String.mk (List.take_of_length_le hlen)
  · cases data with
    | mk l =>
      show (l.take 2000).length ≤ 2000
      rw [List.length_take]
      omega

theorem toolresult_truncated_witness :
    ("agent#1" = agentFixture.id) ∧
    ((∃ t u,
      (BuilderAgent.onEvent portStep validateStep
          (.toolResult "agent#1" "fs" none true "payload") agentFixture).events =
        agentFixture.events ++ [.observation "fs" true (sliceTo "payload" 2000)] ++ t ∧
      (BuilderAgent.onEvent portStep validateStep
          (.toolResult "agent#1" "fs" none true "payload") agentFixture).convo =
        agentFixture.convo ++ [⟨.user, "TOOL(" ++ "fs" ++ ") -> " ++
          (if true then "ok" else "error") ++ "\n" ++ sliceTo "payload" 2000⟩] ++ u) ∧
     ((String.length "payload" ≤ 2000 → sliceTo "payload" 2000 = "payload") ∧
      (sliceTo "payload" 2000).length ≤ 2000)) :=
  ⟨rfl, toolresult_truncated portStep validateStep agentFixture "agent#1" "fs" none true
    "payload" rfl⟩

end Thom
